import Mathlib

/-!
Verification of the Halftime NFL EPA reporting scripts.

This file gives a shallow embedding of the core logic of `src/NFL_EPA.py` and
`src/NFL-epa.py`: team-name resolution, matchup parsing, schedule matching,
readiness gating, EPA aggregation, percentile ranking, report-row building,
spreadsheet column arithmetic, the data-source fallback loop, and the
percentile color mapper.  Python floats are modelled as rationals (reals for
the `tanh`-based color curve, which is transcendental).  Pandas frames are
modelled as lists of records; groupby/aggregate operations are modelled by
explicit filtering, with key order irrelevant to every claim proved here.
-/

/-- Python's `\s` whitespace class over ASCII, as used by the separator
regex in `parse_matchup` (space, tab, newline, carriage return, vertical
tab, form feed). -/
def isWs (c : Char) : Bool :=
  c = ' ' || c = '\t' || c = '\n' || c = '\r' || c = '\x0b' || c = '\x0c'

/-- `TEAM_ABBR` nickname table from `NFL_EPA.py` (insertion order kept). -/
def TEAM_ABBR : List (String × String) :=
  [("bills", "BUF"), ("dolphins", "MIA"), ("patriots", "NE"), ("jets", "NYJ"),
   ("ravens", "BAL"), ("bengals", "CIN"), ("browns", "CLE"), ("steelers", "PIT"),
   ("texans", "HOU"), ("colts", "IND"), ("jaguars", "JAX"), ("titans", "TEN"),
   ("broncos", "DEN"), ("chiefs", "KC"), ("raiders", "LV"), ("chargers", "LAC"),
   ("cowboys", "DAL"), ("giants", "NYG"), ("eagles", "PHI"), ("commanders", "WAS"),
   ("bears", "CHI"), ("lions", "DET"), ("packers", "GB"), ("vikings", "MIN"),
   ("falcons", "ATL"), ("panthers", "CAR"), ("saints", "NO"), ("buccaneers", "TB"),
   ("cardinals", "ARI"), ("rams", "LA"), ("49ers", "SF"), ("seahawks", "SEA")]

/-- `CITY_VARIANTS` historical/variant table from `NFL_EPA.py`. -/
def CITY_VARIANTS : List (String × String) :=
  [("washington", "WAS"), ("footballteam", "WAS"), ("commanders", "WAS"),
   ("newyorkgiants", "NYG"), ("giants", "NYG"),
   ("newyorkjets", "NYJ"), ("jets", "NYJ"),
   ("losangeleschargers", "LAC"), ("chargers", "LAC"), ("sandiegochargers", "LAC"),
   ("losangelesrams", "LA"), ("rams", "LA"), ("stlouisrams", "LA"),
   ("lasvegasraiders", "LV"), ("oaklandraiders", "LV"), ("raiders", "LV"),
   ("tampabaybuccaneers", "TB"), ("buccaneers", "TB"), ("bucs", "TB"),
   ("sanfrancisco49ers", "SF"), ("49ers", "SF"), ("niners", "SF"),
   ("jacksonvillejaguars", "JAX"), ("jaguars", "JAX"), ("jags", "JAX"),
   ("kansascitychiefs", "KC"), ("chiefs", "KC")]

/-- Python dict lookup on one of the two tables (first match wins; the
source dicts have distinct keys so order is immaterial). -/
def lookupTable (tbl : List (String × String)) (key : String) : Option String :=
  (tbl.find? (fun e => e.1 = key)).map (fun e => e.2)

/-- `re.sub(r"[^a-z]", "", str(name).lower())`: lower-case, then keep only
the characters a-z (`str.lower()` acts per character on the inputs in
scope, so it is modelled by mapping `Char.toLower`). -/
def normKey (name : String) : String :=
  String.mk ((name.toList.map Char.toLower).filter (fun c => 'a' ≤ c && c ≤ 'z'))

/-- `to_abbr` from `NFL_EPA.py`: normalize, consult `CITY_VARIANTS` first,
then `TEAM_ABBR`, defaulting to the empty string. -/
def to_abbr (name : String) : String :=
  match lookupTable CITY_VARIANTS (normKey name) with
  | some v => v
  | none => (lookupTable TEAM_ABBR (normKey name)).getD ""

/-- Shared tail of the separator regex: after `@` or `at`, require `\s+`
(greedy) and return the suffix after it. -/
def sepTail (r2 : List Char) : Option (List Char) :=
  if r2.takeWhile isWs = [] then none else some (r2.dropWhile isWs)

/-- One attempt to match the `parse_matchup` separator regex
`\s+@\s+|\s+at\s+` (flags `re.I`) at the head of `cs`; on success returns
the suffix after the (greedy) match.  The two alternatives are
distinguished by their first non-space character, so PCRE backtracking
never changes the outcome. -/
def matchSep (cs : List Char) : Option (List Char) :=
  if cs.takeWhile isWs = [] then none
  else
    match cs.dropWhile isWs with
    | c1 :: rest1 =>
      if c1 = '@' then sepTail rest1
      else
        match rest1 with
        | c2 :: rest2 =>
          if (c1 = 'a' || c1 = 'A') && (c2 = 't' || c2 = 'T') then sepTail rest2 else none
        | [] => none
    | [] => none

/-- `re.split` scan: walk the character list, splitting at every separator
match.  `fuel` is an upper bound on the number of steps; each step consumes
at least one character, so `cs.length + 1` fuel always suffices (the
`fuel = 0` fallback is unreachable then). -/
def splitGo : Nat → List Char → List Char → List (List Char)
  | 0, cs, acc => [acc.reverse ++ cs]
  | _ + 1, [], acc => [acc.reverse]
  | fuel + 1, c :: cs', acc =>
    match matchSep (c :: cs') with
    | some rest => acc.reverse :: splitGo fuel rest []
    | none => splitGo fuel cs' (c :: acc)

/-- `re.split(r"\s+@\s+|\s+at\s+", s, flags=re.I)`. -/
def splitOnSep (cs : List Char) : List (List Char) :=
  splitGo (cs.length + 1) cs []

/-- Python `str.strip()` restricted to the whitespace class. -/
def stripChars (cs : List Char) : List Char :=
  (((cs.dropWhile isWs).reverse).dropWhile isWs).reverse

/-- `parse_matchup` from `NFL_EPA.py`: split on the separator regex; a
result with exactly two parts resolves both sides with `to_abbr`
(`none` models the Python `(None, None)` return). -/
def parse_matchup (s : String) : Option (String × String) :=
  match splitOnSep s.toList with
  | [p1, p2] =>
    some (to_abbr (String.mk (stripChars p1)), to_abbr (String.mk (stripChars p2)))
  | _ => none

/-- Fuel-indexed body of `col_to_letter`'s `while` loop; the second
argument is the remaining `col_idx`, which never exceeds the fuel when
started with `fuel = col_idx`. -/
def colLetterGo : Nat → Nat → List Char
  | _, 0 => []
  | 0, _ + 1 => []
  | fuel + 1, n + 1 => colLetterGo fuel (n / 26) ++ [Char.ofNat (65 + n % 26)]

/-- `col_to_letter` from `NFL_EPA.py` (result as a character list). -/
def col_to_letter (n : Nat) : List Char :=
  colLetterGo n n

/-- `letter_to_col` from `NFL_EPA.py`: fold `n*26 + (ord(ch.upper()) - 64)`
over the letters. -/
def letter_to_col (s : List Char) : Nat :=
  s.foldl (fun n c => n * 26 + (c.toUpper.toNat - 64)) 0

/-- One row of the season `schedule` frame built in `NFL_EPA.py`
(`gameday` is `none` when the upstream date is missing/unparseable). -/
structure ScheduleEntry where
  game_id : String
  season : Int
  week : Int
  home_team : String
  away_team : String
  gameday : Option String
deriving DecidableEq

/-- One parsed sheet-row target (`targets` entry) from `NFL_EPA.py`.
A Python `None` in `away`/`home` (unparseable matchup) is conflated with
the empty string: `find_game_id` only tests falsiness of these fields. -/
structure GameTarget where
  away : String
  home : String
  week : Option Int
  date : Option String
deriving DecidableEq

/-- Candidate filtering inside `find_game_id`: home/away equality, then
week when present, then date when present. -/
def candidateGames (schedule : List ScheduleEntry) (t : GameTarget) : List ScheduleEntry :=
  let c1 := schedule.filter (fun e => decide (e.home_team = t.home ∧ e.away_team = t.away))
  let c2 := match t.week with
    | some w => c1.filter (fun e => decide (e.week = w))
    | none => c1
  match t.date with
  | some d => c2.filter (fun e => decide (e.gameday = some d))
  | none => c2

/-- `find_game_id` from `NFL_EPA.py`: falsy teams give up; otherwise the
first row of the filtered frame (`cand.iloc[0]`) is returned, `none` when
no candidate remains. -/
def find_game_id (schedule : List ScheduleEntry) : Option GameTarget → Option String
  | none => none
  | some t =>
    if t.away = "" ∨ t.home = "" then none
    else
      match candidateGames schedule t with
      | [] => none
      | e :: _ => some e.game_id

/-- One play-by-play record as used by `NFL_EPA.py` after the
`play_type.notna()` filter (`pass` kept with the source's column name). -/
structure Play where
  game_id : String
  play_id : Nat
  posteam : String
  qtr : Int
  rush : Bool
  pass : Bool
  epa : ℚ
deriving DecidableEq

/-- `g_max_qtr.get(gid, 0)`: max quarter among the game's plays, 0 when the
game has no plays. -/
def g_max_qtr (pbp : List Play) (gid : String) : Int :=
  match (pbp.filter (fun p => decide (p.game_id = gid))).map (fun p => p.qtr) with
  | [] => 0
  | q :: qs => qs.foldl max q

/-- `h1_counts.get(gid, 0)`: number of the game's plays with quarter 1 or 2
(the `h1_mask` / groupby-count combination). -/
def h1_count (pbp : List Play) (gid : String) : Nat :=
  ((pbp.filter (fun p => decide (p.qtr = 1 ∨ p.qtr = 2))).filter
    (fun p => decide (p.game_id = gid))).length

/-- The three recognized `RUN_MODE` values (any other env string behaves
like `HALFTIME_OR_FINAL` in the source and is not modelled separately). -/
inductive RunMode
  | HALFTIME_ONLY
  | FINAL_ONLY
  | HALFTIME_OR_FINAL
deriving DecidableEq

/-- `is_halftime` from `NFL_EPA.py` (`minp` models `MIN_1H_PLAYS`). -/
def is_halftime (pbp : List Play) (minp : Nat) (gid : String) : Bool :=
  decide (g_max_qtr pbp gid = 2) && decide (minp ≤ h1_count pbp gid)

/-- `is_final_or_late` from `NFL_EPA.py`. -/
def is_final_or_late (pbp : List Play) (gid : String) : Bool :=
  decide (4 ≤ g_max_qtr pbp gid)

/-- `game_allowed_for_mode` from `NFL_EPA.py`. -/
def game_allowed_for_mode (mode : RunMode) (pbp : List Play) (minp : Nat) (gid : String) : Bool :=
  match mode with
  | RunMode.HALFTIME_ONLY => is_halftime pbp minp gid
  | RunMode.FINAL_ONLY => is_final_or_late pbp gid
  | RunMode.HALFTIME_OR_FINAL => is_halftime pbp minp gid || is_final_or_late pbp gid

/-- One output row of `agg_epp` (`epa` is the groupwise sum, as in the
source's column of the same name). -/
structure EppRow where
  game_id : String
  posteam : String
  plays : Nat
  epa : ℚ
  epa_per_play : Option ℚ
deriving DecidableEq

/-- `agg_epp` from `NFL_EPA.py`: group `df` by `(game_id, posteam)`, count
plays and sum `epa`, then `epa_per_play = epa / plays`, masked to null for
zero-play groups (pandas group keys are listed here in first-occurrence
order; the claims below do not depend on row order). -/
def agg_epp (df : List Play) : List EppRow :=
  ((df.map (fun p => (p.game_id, p.posteam))).dedup).map (fun k =>
    let grp := df.filter (fun p => decide (p.game_id = k.1 ∧ p.posteam = k.2))
    let n := grp.length
    let s := (grp.map (fun p => p.epa)).sum
    { game_id := k.1, posteam := k.2, plays := n, epa := s,
      epa_per_play := if n = 0 then none else some (s / (n : ℚ)) })

/-- `pbp[h1_mask]`: the first-half slice (quarters 1 and 2). -/
def first_half (pbp : List Play) : List Play :=
  pbp.filter (fun p => decide (p.qtr = 1 ∨ p.qtr = 2))

/-- Downstream lookup of a group's `epa_per_play` (the merged-frame row
access that `grab` performs): absent group means null. -/
def lookup_epp (rows : List EppRow) (gid team : String) : Option ℚ :=
  match rows.find? (fun r => decide (r.game_id = gid ∧ r.posteam = team)) with
  | none => none
  | some r => r.epa_per_play

/-- `pandas.Series.rank(pct=True)` with the default `average` tie method,
evaluated at a member `v` of the population: average rank of the tied block
divided by the population size. -/
def pandasRankPct (pop : List ℚ) (v : ℚ) : ℚ :=
  let n := pop.length
  let cLt := (pop.filter (fun x => decide (x < v))).length
  let cEq := (pop.filter (fun x => decide (x = v))).length
  ((cLt : ℚ) + ((cEq : ℚ) + 1) / 2) / (n : ℚ)

/-- A value/percentile row of one of the four per-split frames fed to
`add_percentile`. -/
structure ValRow where
  game_id : String
  team : String
  value : Option ℚ
  pct : Option ℚ
deriving DecidableEq

/-- `add_percentile` from `NFL_EPA.py`: rank the non-null values of the
column and left-merge the percentile back onto the frame; null values keep
a null percentile (this also covers the source's explicit empty-population
branch, where every value is null). -/
def add_percentile (rows : List ValRow) : List ValRow :=
  let pop := rows.filterMap (fun r => r.value)
  rows.map (fun r => { r with pct := r.value.map (fun v => pandasRankPct pop v) })

/-- One row of the merged `h1`/`full` lookup frames (run and pass value and
percentile columns for one `(game_id, team)`). -/
structure StatRow where
  game_id : String
  team : String
  run_epp : Option ℚ
  run_pct : Option ℚ
  pass_epp : Option ℚ
  pass_pct : Option ℚ
deriving DecidableEq

/-- `grab` from `NFL_EPA.py`: first row's cell of the filtered frame, null
when the frame is empty or the cell is NA (the `float(...)` conversion is
the identity in this model). -/
def grab (df : List StatRow) (col : StatRow → Option ℚ) : Option ℚ :=
  match df with
  | [] => none
  | r :: _ => col r

/-- `f"{val:.3f}"` on a rational (Python's binary-float half-even rounding
is modelled as exact half-up rounding of the rational; no claim below
depends on the rendered digits). -/
def fmtQ3 (v : ℚ) : String :=
  let m : Int := round (v * 1000)
  let a : Nat := m.natAbs
  let fracDigits :=
    let s := toString (a % 1000)
    String.mk (List.replicate (3 - s.length) '0') ++ s
  (if m < 0 then "-" else "") ++ toString (a / 1000) ++ "." ++ fracDigits

/-- `fmt_val_with_pct` from `NFL_EPA.py`: empty string for a null value,
otherwise the value with an optional `(NN%)` percentile annotation. -/
def fmt_val_with_pct (val pct : Option ℚ) : String :=
  match val with
  | none => ""
  | some v =>
    match pct with
    | none => fmtQ3 v
    | some p => fmtQ3 v ++ " (" ++ toString (round (p * 100) : Int) ++ "%)"

/-- The all-blank 8-cell output row. -/
def blankRow : List String :=
  ["", "", "", "", "", "", "", ""]

/-- One iteration of the `for t in targets` output loop in `NFL_EPA.py`,
returning the 8 formatted cells and the parallel 8 percentiles.  The `h1`
and `full` frames are taken as inputs, exactly as the loop reads them. -/
def buildRow (schedule : List ScheduleEntry) (pbp : List Play) (mode : RunMode) (minp : Nat)
    (h1 full : List StatRow) (t : Option GameTarget) : List String × List (Option ℚ) :=
  match t with
  | none => (blankRow, List.replicate 8 none)
  | some t =>
    match find_game_id schedule (some t) with
    | none => (blankRow, List.replicate 8 none)
    | some gid =>
      if gid = "" ∨ game_allowed_for_mode mode pbp minp gid = false then
        (blankRow, List.replicate 8 none)
      else
        let h_home := h1.filter (fun r => decide (r.game_id = gid ∧ r.team = t.home))
        let h_away := h1.filter (fun r => decide (r.game_id = gid ∧ r.team = t.away))
        let f_home := full.filter (fun r => decide (r.game_id = gid ∧ r.team = t.home))
        let f_away := full.filter (fun r => decide (r.game_id = gid ∧ r.team = t.away))
        let a_h1_run := grab h_away (fun r => r.run_epp)
        let a_h1_run_pct := grab h_away (fun r => r.run_pct)
        let a_h1_pass := grab h_away (fun r => r.pass_epp)
        let a_h1_pass_pct := grab h_away (fun r => r.pass_pct)
        let h_h1_run := grab h_home (fun r => r.run_epp)
        let h_h1_run_pct := grab h_home (fun r => r.run_pct)
        let h_h1_pass := grab h_home (fun r => r.pass_epp)
        let h_h1_pass_pct := grab h_home (fun r => r.pass_pct)
        let a_full_run := grab f_away (fun r => r.run_epp)
        let a_full_run_pct := grab f_away (fun r => r.run_pct)
        let a_full_pass := grab f_away (fun r => r.pass_epp)
        let a_full_pass_pct := grab f_away (fun r => r.pass_pct)
        let h_full_run := grab f_home (fun r => r.run_epp)
        let h_full_run_pct := grab f_home (fun r => r.run_pct)
        let h_full_pass := grab f_home (fun r => r.pass_epp)
        let h_full_pass_pct := grab f_home (fun r => r.pass_pct)
        ([fmt_val_with_pct a_h1_run a_h1_run_pct,
          fmt_val_with_pct a_h1_pass a_h1_pass_pct,
          fmt_val_with_pct h_h1_run h_h1_run_pct,
          fmt_val_with_pct h_h1_pass h_h1_pass_pct,
          fmt_val_with_pct a_full_run a_full_run_pct,
          fmt_val_with_pct a_full_pass a_full_pass_pct,
          fmt_val_with_pct h_full_run h_full_run_pct,
          fmt_val_with_pct h_full_pass h_full_pass_pct],
         [a_h1_run_pct, a_h1_pass_pct, h_h1_run_pct, h_h1_pass_pct,
          a_full_run_pct, a_full_pass_pct, h_full_run_pct, h_full_pass_pct])

/-- The whole output loop: `records`/`pct_matrix` as a list of pairs. -/
def buildRows (schedule : List ScheduleEntry) (pbp : List Play) (mode : RunMode) (minp : Nat)
    (h1 full : List StatRow) (targets : List (Option GameTarget)) :
    List (List String × List (Option ℚ)) :=
  targets.map (buildRow schedule pbp mode minp h1 full)

/-- One raw play record gathered by `NFL-epa.py` (ESPN or nfl_data_py
shape after renaming; only the fields its aggregation reads).  `qtr` is
`none` when the upstream JSON had no period number. -/
structure RawPlay where
  game_id : String
  team : String
  qtr : Option Int
  epa : ℚ
deriving DecidableEq

/-- `qtr_to_half` from `NFL-epa.py` (the `except` branch of `int(q)` is the
`none` case). -/
def qtr_to_half (q : Option Int) : String :=
  match q with
  | none => "Other"
  | some q => if q = 1 ∨ q = 2 then "1H" else if q = 3 ∨ q = 4 then "2H" else "Other"

/-- One output row of `epa_stats` (columns `Team`, `EPA_1H`, `EPA_2H`). -/
structure TeamHalves where
  team : String
  epa_1H : ℚ
  epa_2H : ℚ
deriving DecidableEq

/-- The `(team, half)` cell of the pivoted `epa_stats` frame: the mean of
`epa` over the group's plays, or `0.0` for an absent group — the combined
effect of `.fillna(0.0)` and the missing-column default. -/
def halfMean (pbp : List RawPlay) (tm half : String) : ℚ :=
  let grp := pbp.filter (fun p => decide (p.team = tm ∧ qtr_to_half p.qtr = half))
  if grp.length = 0 then 0 else (grp.map (fun p => p.epa)).sum / (grp.length : ℚ)

/-- Insertion step of the `.sort_values("Team")` model. -/
def insertLe (a : String) : List String → List String
  | [] => [a]
  | b :: bs => if a ≤ b then a :: b :: bs else b :: insertLe a bs

/-- Stable insertion sort modelling `.sort_values("Team")`. -/
def sortStrings (l : List String) : List String :=
  l.foldr insertLe []

/-- `epa_stats` from `NFL-epa.py`: per-team mean EPA for each half with
zero-play cells filled with `0.0`, rows sorted by team. -/
def epa_stats (pbp : List RawPlay) : List TeamHalves :=
  (sortStrings ((pbp.map (fun p => p.team)).dedup)).map (fun tm =>
    { team := tm, epa_1H := halfMean pbp tm "1H", epa_2H := halfMean pbp tm "2H" })

/-- Normalization of one source's result in the main retrieval loop of
`NFL-epa.py`: a `None` frame or an empty frame contributes nothing
(a raised exception inside a fetcher is caught there and returned as
`None`, so it is folded into the `none` case). -/
def normalizeFrame (df : Option (List RawPlay)) : Option (List RawPlay) :=
  match df with
  | none => none
  | some l => if l.isEmpty then none else some l

/-- One season iteration of the retrieval loop: try `get_espn_pbp`, fall
back to `get_nfl_data_py` when it yields `None` or an empty frame, and
contribute the frame to `frames` only when non-empty. -/
def fetch_season (espn nfldata : Int → Option (List RawPlay)) (y : Int) :
    Option (List RawPlay) :=
  match espn y with
  | none => normalizeFrame (nfldata y)
  | some l => if l.isEmpty then normalizeFrame (nfldata y) else some l

/-- The `frames` list gathered over all configured seasons. -/
def gather_frames (espn nfldata : Int → Option (List RawPlay)) (seasons : List Int) :
    List (List RawPlay) :=
  seasons.filterMap (fun y => fetch_season espn nfldata y)

/-- The data-retrieval stage of `NFL-epa.py`: `RuntimeError` when no frame
was gathered, otherwise the concatenated play set. -/
def run_pipeline (espn nfldata : Int → Option (List RawPlay)) (seasons : List Int) :
    Except String (List RawPlay) :=
  let frames := gather_frames espn nfldata seasons
  if frames.isEmpty then
    Except.error "No play-by-play data found from ESPN or nfl_data_py."
  else
    Except.ok frames.flatten

/-- The sheet writes performed by a run of `NFL-epa.py`: the `ws.update`
payload (the `epa_stats` grid) happens only after retrieval succeeded; the
`RuntimeError` aborts before any write. -/
def run_writes (espn nfldata : Int → Option (List RawPlay)) (seasons : List Int) :
    List (List TeamHalves) :=
  match run_pipeline espn nfldata seasons with
  | Except.error _ => []
  | Except.ok pbp => [epa_stats pbp]

/-- An RGB color as handed to `gspread_formatting.Color`. -/
@[ext]
structure RGB where
  r : ℝ
  g : ℝ
  b : ℝ

/-- `clamp01` from `NFL_EPA.py`. -/
noncomputable def clamp01 (x : ℝ) : ℝ :=
  max 0 (min 1 x)

/-- `contrast_curve` from `NFL_EPA.py`: `0.5 + 0.5 * tanh((p - 0.5) * 3.6)`
(the comment in the source mentions factor 1.8; the code multiplies by 3.6). -/
noncomputable def contrast_curve (p : ℝ) : ℝ :=
  0.5 + 0.5 * Real.tanh ((p - 0.5) * 3.6)

/-- `pct_to_color` from `NFL_EPA.py` over exact reals (the source works on
binary floats; every property proved below is structural, not a rounding
artifact).  Null percentile gives white; otherwise interpolate dark red →
white → strong green over the contrast-boosted percentile. -/
noncomputable def pct_to_color (p? : Option ℝ) : RGB :=
  match p? with
  | none => ⟨1, 1, 1⟩
  | some p0 =>
    let p := clamp01 p0
    let pc := contrast_curve p
    if pc ≤ 0.5 then
      let t := pc / 0.5
      ⟨0.85 + (1.0 - 0.85) * t, 0.18 + (1.0 - 0.18) * t, 0.18 + (1.0 - 0.18) * t⟩
    else
      let t := (pc - 0.5) / 0.5
      ⟨1.0 + (0.20 - 1.0) * t, 1.0 + (0.92 - 1.0) * t, 1.0 + (0.20 - 1.0) * t⟩

/-- A (reversed-view) check that `cs` ends in whitespace followed by a
separator token (`@` or case-insensitive `at`): at such an ending the
pattern `\\s+@\\s+|\\s+at\\s+` can finish its trailing `\\s+` in text
appended after `cs`, so a separator match crosses the boundary. -/
def badEnd (cs : List Char) : Bool :=
  match cs.reverse with
  | c1 :: c2 :: rest =>
    (c1 = '@' && isWs c2)
    || (match rest with
        | c3 :: _ => ((c1 = 't' || c1 = 'T') && (c2 = 'a' || c2 = 'A')) && isWs c3
        | [] => false)
  | _ => false

/-- No suffix of `cs` begins a separator match. -/
def noSepInside (cs : List Char) : Bool :=
  (List.range cs.length).all (fun i => (matchSep (cs.drop i)).isNone)

/-- No suffix of `cs` ends in a boundary-crossing separator prefix. -/
def noCrossEnd (cs : List Char) : Bool :=
  (List.range cs.length).all (fun i => !badEnd (cs.drop i))

/-- A side of a matchup string that interacts cleanly with the separator
scan: non-empty, no whitespace at either end, no separator match starting
inside it, and no separator prefix dangling at its end. -/
def sideClean (cs : List Char) : Bool :=
  (match cs.head? with
   | some c => !isWs c
   | none => false)
  && (match cs.reverse.head? with
      | some c => !isWs c
      | none => false)
  && noSepInside cs && noCrossEnd cs

/-! ## Helper lemmas -/

theorem letter_to_col_append (xs : List Char) (c : Char) :
    letter_to_col (xs ++ [c]) = letter_to_col xs * 26 + (c.toUpper.toNat - 64) := by
  simp [letter_to_col, List.foldl_append]

theorem upperVal_ofNat : ∀ r < 26, (Char.ofNat (65 + r)).toUpper.toNat - 64 = r + 1 := by
  decide

theorem colLetterGo_roundtrip :
    ∀ fuel n : Nat, n ≤ fuel → letter_to_col (colLetterGo fuel n) = n := by
  intro fuel
  induction fuel with
  | zero =>
    intro n hn
    have : n = 0 := Nat.le_zero.mp hn
    subst this
    rfl
  | succ f ih =>
    intro n hn
    match n with
    | 0 => rfl
    | m + 1 =>
      have h1 : m / 26 ≤ f :=
        le_trans (Nat.div_le_self m 26) (Nat.le_of_succ_le_succ hn)
      have hstep : colLetterGo (f + 1) (m + 1)
          = colLetterGo f (m / 26) ++ [Char.ofNat (65 + m % 26)] := rfl
      rw [hstep, letter_to_col_append, ih _ h1,
        upperVal_ofNat (m % 26) (Nat.mod_lt _ (by norm_num))]
      omega

theorem filter_lt_add_filter_eq_le (pop : List ℚ) (v : ℚ) :
    (pop.filter (fun x => decide (x < v))).length
      + (pop.filter (fun x => decide (x = v))).length ≤ pop.length := by
  induction pop with
  | nil => simp
  | cons a l ih =>
    rcases eq_or_ne a v with h2 | h2
    · subst h2
      simp [List.filter_cons]
      omega
    · simp only [List.filter_cons, decide_eq_true_eq]
      rw [if_neg h2]
      by_cases h1 : a < v
      · rw [if_pos h1]
        simp only [List.length_cons]
        omega
      · rw [if_neg h1]
        simp only [List.length_cons]
        omega

theorem filter_lt_add_filter_eq_of_max (pop : List ℚ) (v : ℚ)
    (hall : ∀ x ∈ pop, x ≠ v → x < v) :
    (pop.filter (fun x => decide (x < v))).length
      + (pop.filter (fun x => decide (x = v))).length = pop.length := by
  induction pop with
  | nil => simp
  | cons a l ih =>
    have ih' := ih (fun x hx h => hall x (List.mem_cons_of_mem _ hx) h)
    rcases eq_or_ne a v with h2 | h2
    · subst h2
      simp [List.filter_cons]
      omega
    · have hlt : a < v := hall a (List.mem_cons_self _ _) h2
      simp only [List.filter_cons, decide_eq_true_eq]
      rw [if_pos hlt, if_neg h2]
      simp only [List.length_cons]
      omega

/-! ## C10 -/

/-- C10: the spreadsheet column-index helpers are mutually inverse — for
every positive column index `n`, `letter_to_col (col_to_letter n) = n`, so
the computed output range columns round-trip exactly. -/
theorem c10_col_letter_roundtrip (n : Nat) (h : 1 ≤ n) :
    letter_to_col (col_to_letter n) = n :=
  colLetterGo_roundtrip n n (le_refl n)

theorem c10_col_letter_roundtrip_witness :
    1 ≤ 703 ∧ letter_to_col (col_to_letter 703) = 703 :=
  ⟨by decide, c10_col_letter_roundtrip 703 (by decide)⟩

/-! ## C4 -/

/-- C4: a game is halftime-reportable exactly when the maximum observed
quarter equals 2 and the first-half play count is at least the configured
minimum (equality with the threshold is reportable, one below is not), and
final-or-late-reportable exactly when the maximum observed quarter is at
least 4; the run mode selects which condition gates reporting. -/
theorem c4_readiness_gate (pbp : List Play) (gid : String) (minp : Nat) :
    (is_halftime pbp minp gid = true
      ↔ (g_max_qtr pbp gid = 2 ∧ minp ≤ h1_count pbp gid))
    ∧ (is_final_or_late pbp gid = true ↔ 4 ≤ g_max_qtr pbp gid)
    ∧ game_allowed_for_mode RunMode.HALFTIME_ONLY pbp minp gid = is_halftime pbp minp gid
    ∧ game_allowed_for_mode RunMode.FINAL_ONLY pbp minp gid = is_final_or_late pbp gid
    ∧ game_allowed_for_mode RunMode.HALFTIME_OR_FINAL pbp minp gid
        = (is_halftime pbp minp gid || is_final_or_late pbp gid)
    ∧ (g_max_qtr pbp gid = 2 → h1_count pbp gid = minp →
        is_halftime pbp minp gid = true)
    ∧ (g_max_qtr pbp gid = 2 → h1_count pbp gid + 1 = minp →
        is_halftime pbp minp gid = false) := by
  refine ⟨?_, ?_, rfl, rfl, rfl, ?_, ?_⟩
  · simp [is_halftime]
  · simp [is_final_or_late]
  · intro h1 h2
    simp [is_halftime, h1]
    omega
  · intro h1 h2
    simp [is_halftime, h1]
    omega

theorem c4_readiness_gate_witness :
    is_halftime [⟨"g", 1, "A", 2, true, false, 0⟩, ⟨"g", 2, "A", 2, false, true, 0⟩] 2 "g" = true
    ∧ is_halftime [⟨"g", 1, "A", 2, true, false, 0⟩, ⟨"g", 2, "A", 2, false, true, 0⟩] 3 "g"
        = false :=
  ⟨(c4_readiness_gate _ "g" 2).2.2.2.2.2.1 (by decide) (by decide),
   (c4_readiness_gate _ "g" 3).2.2.2.2.2.2 (by decide) (by decide)⟩

/-! ## C1 -/

/-- C1 counterexample: a descriptor with resolved teams matching two
schedule entries (after all available filters) does NOT yield an
unresolved match — `find_game_id` returns the first candidate's id. -/
theorem c1_counterexample :
    1 < (candidateGames
        [⟨"g1", 2025, 5, "DAL", "WAS", none⟩, ⟨"g2", 2025, 5, "DAL", "WAS", none⟩]
        ⟨"WAS", "DAL", none, none⟩).length
    ∧ find_game_id
        [⟨"g1", 2025, 5, "DAL", "WAS", none⟩, ⟨"g2", 2025, 5, "DAL", "WAS", none⟩]
        (some ⟨"WAS", "DAL", none, none⟩) = some "g1" := by
  decide

/-- C1 amended: with resolved away and home teams, whenever the filtered
candidate list is non-empty — including the ambiguous case of more than
one remaining candidate — `find_game_id` returns the FIRST candidate's
`game_id` (schedule order), rather than failing closed. -/
theorem c1_first_candidate (schedule : List ScheduleEntry) (t : GameTarget)
    (ha : t.away ≠ "") (hh : t.home ≠ "")
    (e : ScheduleEntry) (rest : List ScheduleEntry)
    (hc : candidateGames schedule t = e :: rest) :
    find_game_id schedule (some t) = some e.game_id := by
  show (if t.away = "" ∨ t.home = "" then none
    else match candidateGames schedule t with
      | [] => none
      | e :: _ => some e.game_id) = some e.game_id
  rw [if_neg (by simp [ha, hh]), hc]

theorem c1_first_candidate_witness :
    find_game_id
      [⟨"g1", 2025, 5, "DAL", "WAS", none⟩, ⟨"g2", 2025, 5, "DAL", "WAS", none⟩]
      (some ⟨"WAS", "DAL", none, none⟩) = some "g1" :=
  c1_first_candidate _ ⟨"WAS", "DAL", none, none⟩ (by decide) (by decide)
    ⟨"g1", 2025, 5, "DAL", "WAS", none⟩ [⟨"g2", 2025, 5, "DAL", "WAS", none⟩] (by decide)

/-! ## C7 -/

/-- C7: the resolver strips all non-alphabetic characters, which makes the
digit-bearing table keys unreachable — `to_abbr "49ers"` normalizes to
`"ers"` and returns the empty sentinel even though `TEAM_ABBR` carries the
entry `("49ers", "SF")`; only the all-letter variant `"niners"` resolves. -/
theorem c7_49ers_unreachable :
    to_abbr "49ers" = "" ∧ normKey "49ers" = "ers"
    ∧ lookupTable TEAM_ABBR "49ers" = some "SF"
    ∧ lookupTable CITY_VARIANTS "49ers" = some "SF"
    ∧ to_abbr "niners" = "SF" := by
  decide

/-! ## C3 -/

/-- C3 amended (the `agg_epp` half, which holds): a `(game, team)` group
with zero qualifying plays is absent from the `agg_epp` output and reads
as null downstream (`lookup_epp`), and every row `agg_epp` does emit has a
non-null `epa_per_play` equal to the arithmetic mean of the `epa` of its
at-least-one matching plays.  (The `epa_stats` aggregation of
`NFL-epa.py`, by contrast, coerces zero-play cells to `0.0`; see the
counterexample.) -/
theorem c3_agg_epp_null_never_zero (df : List Play) (gid team : String)
    (h0 : (df.filter (fun p => decide (p.game_id = gid ∧ p.posteam = team))).length = 0) :
    lookup_epp (agg_epp df) gid team = none
    ∧ ∀ r ∈ agg_epp df,
        1 ≤ (df.filter (fun p => decide (p.game_id = r.game_id ∧ p.posteam = r.posteam))).length
        ∧ r.epa_per_play = some
            (((df.filter (fun p => decide (p.game_id = r.game_id ∧ p.posteam = r.posteam))).map
                (fun p => p.epa)).sum
              / ((df.filter
                  (fun p => decide (p.game_id = r.game_id ∧ p.posteam = r.posteam))).length : ℚ)) := by
  constructor
  · have hempty : df.filter (fun p => decide (p.game_id = gid ∧ p.posteam = team)) = [] :=
      List.length_eq_zero.mp h0
    have hfind : (agg_epp df).find?
        (fun r => decide (r.game_id = gid ∧ r.posteam = team)) = none := by
      rw [List.find?_eq_none]
      intro r hr hpred
      simp only [decide_eq_true_eq] at hpred
      rcases List.mem_map.mp hr with ⟨k, hk, hrk⟩
      obtain ⟨k1, k2⟩ := k
      have e1 : r.game_id = k1 := by rw [← hrk]
      have e2 : r.posteam = k2 := by rw [← hrk]
      rcases List.mem_map.mp (List.mem_dedup.mp hk) with ⟨p, hp, hpk⟩
      simp only [Prod.mk.injEq] at hpk
      have : p ∈ df.filter (fun p => decide (p.game_id = gid ∧ p.posteam = team)) :=
        List.mem_filter.mpr ⟨hp, by
          simp only [decide_eq_true_eq]
          exact ⟨by rw [hpk.1, ← e1, hpred.1], by rw [hpk.2, ← e2, hpred.2]⟩⟩
      rw [hempty] at this
      exact absurd this (List.not_mem_nil p)
    rw [lookup_epp, hfind]
  · intro r hr
    rcases List.mem_map.mp hr with ⟨k, hk, hrk⟩
    obtain ⟨k1, k2⟩ := k
    have e1 : r.game_id = k1 := by rw [← hrk]
    have e2 : r.posteam = k2 := by rw [← hrk]
    have e3 : r.epa_per_play =
        if (df.filter (fun q => decide (q.game_id = k1 ∧ q.posteam = k2))).length = 0 then none
        else some (((df.filter (fun q => decide (q.game_id = k1 ∧ q.posteam = k2))).map
            (fun p => p.epa)).sum
          / ((df.filter (fun q => decide (q.game_id = k1 ∧ q.posteam = k2))).length : ℚ)) := by
      rw [← hrk]
    rcases List.mem_map.mp (List.mem_dedup.mp hk) with ⟨p, hp, hpk⟩
    simp only [Prod.mk.injEq] at hpk
    have hmem : p ∈ df.filter (fun q => decide (q.game_id = k1 ∧ q.posteam = k2)) :=
      List.mem_filter.mpr ⟨hp, by simp [hpk.1, hpk.2]⟩
    have hlen : 1 ≤ (df.filter (fun q => decide (q.game_id = k1 ∧ q.posteam = k2))).length :=
      Nat.one_le_iff_ne_zero.mpr (fun h => by
        rw [List.length_eq_zero.mp h] at hmem
        exact (List.not_mem_nil p) hmem)
    rw [e1, e2]
    exact ⟨hlen, by rw [e3, if_neg (by omega)]⟩

theorem c3_agg_epp_witness :
    lookup_epp (agg_epp [⟨"g", 1, "A", 1, true, false, 2⟩]) "g" "B" = none :=
  (c3_agg_epp_null_never_zero [⟨"g", 1, "A", 1, true, false, 2⟩] "g" "B" (by decide)).1

/-- C3 counterexample: in `NFL-epa.py`, a team whose only plays are in the
second half gets `EPA_1H = 0.0` — the zero-play `(team, 1H)` group is
rendered as the value zero, not as null. -/
theorem c3_counterexample :
    (epa_stats [⟨"g", "A", some 3, 1⟩]).map (fun r => r.epa_1H) = [0]
    ∧ (([⟨"g", "A", some 3, 1⟩] : List RawPlay).filter
        (fun p => decide (p.team = "A" ∧ qtr_to_half p.qtr = "1H"))).length = 0 :=
  ⟨rfl, rfl⟩

/-! ## C5 -/

/-- C5 counterexample: percentiles are computed by `rank(pct=True)` as
fractions of 1, never rescaled to 0-100 inside `add_percentile` — in the
population `[3, 1]` the entry `3` is strictly greater than every other
value yet its computed percentile is exactly `1`, not at or near `100`. -/
theorem c5_counterexample :
    ((1 : ℚ) < 3)
    ∧ pandasRankPct [(3 : ℚ), 1] 3 = 1
    ∧ ¬ (90 ≤ pandasRankPct [(3 : ℚ), 1] 3) := by
  have h : pandasRankPct [(3 : ℚ), 1] 3 = 1 := by
    norm_num [pandasRankPct, List.filter_cons]
  refine ⟨by norm_num, h, by rw [h]; norm_num⟩

/-- C5 amended: each percentile computed over a non-empty population is a
fraction in `(0, 1]` (scaled to 0-100 only at rendering time); rows with
identical values receive identical percentiles (pandas average-rank ties);
and an un-tied entry strictly greater than all others receives exactly
`1`, the top of the fractional scale. -/
theorem c5_rank_pct (pop : List ℚ) (v : ℚ) (hv : v ∈ pop) :
    0 < pandasRankPct pop v
    ∧ pandasRankPct pop v ≤ 1
    ∧ (∀ rows : List ValRow, ∀ r1 ∈ add_percentile rows, ∀ r2 ∈ add_percentile rows,
        r1.value = r2.value → r1.pct = r2.pct)
    ∧ ((∀ x ∈ pop, x ≠ v → x < v) →
        (pop.filter (fun x => decide (x = v))).length = 1 →
        pandasRankPct pop v = 1) := by
  have hn : 0 < pop.length := List.length_pos.mpr (List.ne_nil_of_mem hv)
  have hnq : 0 < (pop.length : ℚ) := by exact_mod_cast hn
  have hEmem : v ∈ pop.filter (fun x => decide (x = v)) :=
    List.mem_filter.mpr ⟨hv, by simp⟩
  have hE : 1 ≤ (pop.filter (fun x => decide (x = v))).length :=
    Nat.one_le_iff_ne_zero.mpr (fun h => by
      rw [List.length_eq_zero.mp h] at hEmem
      exact (List.not_mem_nil v) hEmem)
  have hLE := filter_lt_add_filter_eq_le pop v
  refine ⟨?_, ?_, ?_, ?_⟩
  · apply div_pos _ hnq
    have h1 : (1 : ℚ) ≤ ((pop.filter (fun x => decide (x = v))).length : ℚ) := by
      exact_mod_cast hE
    positivity
  · rw [pandasRankPct, div_le_one hnq]
    have c1 : ((pop.filter (fun x => decide (x < v))).length : ℚ)
        + ((pop.filter (fun x => decide (x = v))).length : ℚ) ≤ (pop.length : ℚ) := by
      exact_mod_cast hLE
    have c2 : (1 : ℚ) ≤ ((pop.filter (fun x => decide (x = v))).length : ℚ) := by
      exact_mod_cast hE
    linarith
  · intro rows r1 h1 r2 h2 hval
    rcases List.mem_map.mp h1 with ⟨o1, _, hr1⟩
    rcases List.mem_map.mp h2 with ⟨o2, _, hr2⟩
    have p1 : r1.pct = r1.value.map (fun v =>
        pandasRankPct (rows.filterMap (fun r => r.value)) v) := by
      rw [← hr1]
    have p2 : r2.pct = r2.value.map (fun v =>
        pandasRankPct (rows.filterMap (fun r => r.value)) v) := by
      rw [← hr2]
    rw [p1, p2, hval]
  · intro hmax hone
    have hsum := filter_lt_add_filter_eq_of_max pop v hmax
    rw [hone] at hsum
    rw [pandasRankPct, hone]
    have cL : ((pop.filter (fun x => decide (x < v))).length : ℚ) + 1 = (pop.length : ℚ) := by
      exact_mod_cast hsum
    field_simp
    linarith

theorem c5_rank_pct_witness :
    0 < pandasRankPct [(3 : ℚ), 1] 3
    ∧ pandasRankPct [(3 : ℚ), 1] 3 ≤ 1
    ∧ pandasRankPct [(3 : ℚ), 1] 3 = 1 :=
  have h := c5_rank_pct [(3 : ℚ), 1] 3 (by norm_num)
  ⟨h.1, h.2.1, h.2.2.2
    (by
      intro x hx hne
      rcases List.mem_cons.mp hx with h3 | h3
      · exact absurd h3 hne
      · rcases List.mem_cons.mp h3 with h1 | h1
        · rw [h1]; norm_num
        · exact absurd h1 (List.not_mem_nil x))
    (by norm_num [List.filter_cons])⟩

/-! ## C6 -/

/-- C6: a tracked row whose matchup is absent (`none` target) or
unparseable/unmatched (`find_game_id` returns `none`, which covers
unresolvable team names) or whose game does not satisfy the active
reporting mode is rendered as the fully blank output row — 8 empty cells
and 8 null percentiles — and the builder keeps processing the remaining
rows (the output list is the rowwise map over the targets, one output pair
per input row). -/
theorem c6_blank_row (schedule : List ScheduleEntry) (pbp : List Play) (mode : RunMode)
    (minp : Nat) (h1 full : List StatRow) (targets : List (Option GameTarget))
    (t : Option GameTarget)
    (hblank : t = none ∨ find_game_id schedule t = none ∨
      ∃ gid, find_game_id schedule t = some gid ∧
        (gid = "" ∨ game_allowed_for_mode mode pbp minp gid = false)) :
    buildRow schedule pbp mode minp h1 full t = (blankRow, List.replicate 8 none)
    ∧ (buildRows schedule pbp mode minp h1 full targets).length = targets.length
    ∧ buildRows schedule pbp mode minp h1 full (t :: targets)
        = buildRow schedule pbp mode minp h1 full t
            :: buildRows schedule pbp mode minp h1 full targets := by
  refine ⟨?_, by simp [buildRows], rfl⟩
  match t with
  | none => rfl
  | some tt =>
    rcases hblank with h | h | ⟨gid, hgid, hcond⟩
    · exact absurd h (by simp)
    · simp only [buildRow, h]
    · simp only [buildRow, hgid]
      rw [if_pos hcond]

theorem c6_blank_row_witness :
    buildRow [] [] RunMode.HALFTIME_OR_FINAL 60 [] [] (some ⟨"WAS", "DAL", none, none⟩)
      = (blankRow, List.replicate 8 none) :=
  (c6_blank_row [] [] RunMode.HALFTIME_OR_FINAL 60 [] [] []
    (some ⟨"WAS", "DAL", none, none⟩) (Or.inr (Or.inl (by decide)))).1

/-! ## C9 -/

/-- C9: sources are consulted in fixed order — a non-empty ESPN result is
used as-is and the fallback source is never consulted (the result does not
depend on it); an ESPN exception (`none`) or empty result hands over to
the fallback, normalized the same way; and when every season yields
nothing the run stops with the fatal `RuntimeError` and performs no sheet
write. -/
theorem c9_source_fallback (espn n1 n2 : Int → Option (List RawPlay)) (y : Int)
    (l : List RawPlay) (seasons : List Int) :
    (espn y = some l → l ≠ [] →
      fetch_season espn n1 y = some l
      ∧ fetch_season espn n1 y = fetch_season espn n2 y)
    ∧ ((espn y = none ∨ espn y = some []) →
      fetch_season espn n1 y = normalizeFrame (n1 y))
    ∧ ((∀ s ∈ seasons, fetch_season espn n1 s = none) →
      run_pipeline espn n1 seasons
          = Except.error "No play-by-play data found from ESPN or nfl_data_py."
      ∧ run_writes espn n1 seasons = []) := by
  refine ⟨?_, ?_, ?_⟩
  · intro he hl
    have hne : l.isEmpty = false := by simpa [List.isEmpty_iff] using hl
    constructor <;> simp [fetch_season, he, hne]
  · rintro (he | he) <;> simp [fetch_season, he, normalizeFrame]
  · intro hall
    have hframes : gather_frames espn n1 seasons = [] := by
      simp only [gather_frames, List.filterMap_eq_nil_iff]
      exact hall
    constructor
    · simp [run_pipeline, hframes]
    · simp [run_writes, run_pipeline, hframes]

theorem c9_source_fallback_witness :
    fetch_season (fun _ => some [⟨"g", "A", some 1, 0⟩]) (fun _ => none) 2025
      = some [⟨"g", "A", some 1, 0⟩]
    ∧ run_writes (fun _ => none) (fun _ => none) [2025] = [] :=
  ⟨((c9_source_fallback (fun _ => some [⟨"g", "A", some 1, 0⟩]) (fun _ => none)
      (fun _ => none) 2025 [⟨"g", "A", some 1, 0⟩] []).1 rfl (by simp)).1,
   ((c9_source_fallback (fun _ => none) (fun _ => none) (fun _ => none) 2025 [] [2025]).2.2
      (fun s _ => rfl)).2⟩

/-! ## C2: lemmas about the separator scan -/

theorem splitGo_step_some (fuel : Nat) (cs acc rest : List Char)
    (h : matchSep cs = some rest) :
    splitGo (fuel + 1) cs acc = acc.reverse :: splitGo fuel rest [] := by
  cases cs with
  | nil => simp [matchSep] at h
  | cons c cs' =>
    show (match matchSep (c :: cs') with
      | some rest => acc.reverse :: splitGo fuel rest []
      | none => splitGo fuel cs' (c :: acc)) = acc.reverse :: splitGo fuel rest []
    rw [h]

theorem splitGo_step_none (fuel : Nat) (c : Char) (cs acc : List Char)
    (h : matchSep (c :: cs) = none) :
    splitGo (fuel + 1) (c :: cs) acc = splitGo fuel cs (c :: acc) := by
  show (match matchSep (c :: cs) with
    | some rest => acc.reverse :: splitGo fuel rest []
    | none => splitGo fuel cs (c :: acc)) = splitGo fuel cs (c :: acc)
  rw [h]

theorem splitGo_nil_any (fuel : Nat) (acc : List Char) :
    splitGo fuel [] acc = [acc.reverse] := by
  cases fuel with
  | zero => show [acc.reverse ++ []] = [acc.reverse]; simp
  | succ f => rfl

theorem splitGo_through (cs : List Char) :
    ∀ (fuel : Nat) (tail acc : List Char),
      (∀ i < cs.length, matchSep (cs.drop i ++ tail) = none) →
      splitGo (fuel + cs.length) (cs ++ tail) acc = splitGo fuel tail (cs.reverse ++ acc) := by
  induction cs with
  | nil =>
    intro fuel tail acc _
    simp
  | cons c cs' ih =>
    intro fuel tail acc hnone
    have h0 : matchSep ((c :: cs') ++ tail) = none := by
      have := hnone 0 (by simp)
      simpa using this
    have hshift : ∀ i < cs'.length, matchSep (cs'.drop i ++ tail) = none := by
      intro i hi
      have := hnone (i + 1) (by simp; omega)
      simpa using this
    have hfuel : fuel + (c :: cs').length = (fuel + cs'.length) + 1 := rfl
    rw [hfuel]
    rw [show (c :: cs') ++ tail = c :: (cs' ++ tail) from rfl]
    rw [splitGo_step_none _ _ _ _ (by simpa using h0)]
    rw [ih fuel tail (c :: acc) hshift]
    simp

theorem splitGo_final (cs : List Char) (fuel : Nat) (acc : List Char)
    (hnone : ∀ i < cs.length, matchSep (cs.drop i) = none) :
    splitGo (fuel + cs.length) cs acc = [acc.reverse ++ cs] := by
  have := splitGo_through cs fuel [] acc (by simpa using hnone)
  rw [List.append_nil] at this
  rw [this, splitGo_nil_any]
  simp

theorem sepTail_eq_none_iff (r2 : List Char) :
    sepTail r2 = none ↔ r2.takeWhile isWs = [] := by
  unfold sepTail
  split <;> simp_all

theorem isWs_not_t (c : Char) (h : isWs c = true) : (c = 't' || c = 'T') = false := by
  by_cases h1 : c = 't'
  · subst h1
    exact absurd h (by decide)
  · by_cases h2 : c = 'T'
    · subst h2
      exact absurd h (by decide)
    · simp [h1, h2]

theorem takeWhile_reverse_head (cs : List Char) (h : cs.takeWhile isWs ≠ []) :
    ∃ w ws, (cs.takeWhile isWs).reverse = w :: ws ∧ isWs w = true := by
  cases hcase : (cs.takeWhile isWs).reverse with
  | nil => exact absurd (List.reverse_eq_nil_iff.mp hcase) h
  | cons w ws =>
    refine ⟨w, ws, rfl, ?_⟩
    have hw : w ∈ cs.takeWhile isWs := by
      rw [← List.mem_reverse, hcase]
      exact List.mem_cons_self _ _
    exact List.mem_takeWhile_imp hw

theorem matchSep_elim (cs : List Char) (d1 : Char) (dtl : List Char)
    (hw1 : ¬ cs.takeWhile isWs = [])
    (hd : cs.dropWhile isWs = d1 :: dtl) :
    matchSep cs
      = (if d1 = '@' then sepTail dtl
         else
           match dtl with
           | c2 :: rest2 =>
             if (d1 = 'a' || d1 = 'A') && (c2 = 't' || c2 = 'T') then sepTail rest2 else none
           | [] => none) := by
  unfold matchSep
  rw [if_neg hw1]
  simp only [hd]
  cases dtl <;> rfl

theorem matchSep_append_none (xs rest : List Char)
    (hlast : ∃ z zs, xs.reverse = z :: zs ∧ isWs z = false)
    (hnone : matchSep xs = none)
    (hbad : badEnd xs = false)
    (hrest : ∀ c, rest.head? = some c → isWs c = true) :
    matchSep (xs ++ rest) = none := by
  obtain ⟨z, zs, hrev, hz⟩ := hlast
  cases rest with
  | nil => simpa using hnone
  | cons r rs =>
  have hr : isWs r = true := hrest r rfl
  have hd_ne : xs.dropWhile isWs ≠ [] := by
    intro hnil
    have hall := List.dropWhile_eq_nil_iff.mp hnil
    have hzmem : z ∈ xs := by
      rw [← List.mem_reverse, hrev]
      exact List.mem_cons_self _ _
    have hzw := hall z hzmem
    rw [hz] at hzw
    cases hzw
  by_cases hw1 : xs.takeWhile isWs = []
  · have hxs_ne : xs ≠ [] := by
      intro h
      rw [h] at hrev
      cases hrev
    have hlen_ne : ¬ (xs.takeWhile isWs).length = xs.length := by
      rw [hw1]
      intro h
      exact hxs_ne (List.length_eq_zero.mp h.symm)
    have htw : (xs ++ (r :: rs)).takeWhile isWs = [] := by
      rw [List.takeWhile_append, if_neg hlen_ne, hw1]
    unfold matchSep
    rw [if_pos htw]
  · have hsum : (xs.takeWhile isWs).length + (xs.dropWhile isWs).length = xs.length := by
      conv_rhs => rw [← List.takeWhile_append_dropWhile (p := isWs) (l := xs)]
      rw [List.length_append]
    have hlen_ne : ¬ (xs.takeWhile isWs).length = xs.length := by
      intro hlen
      apply hd_ne
      apply List.length_eq_zero.mp
      omega
    have htw : (xs ++ (r :: rs)).takeWhile isWs = xs.takeWhile isWs := by
      rw [List.takeWhile_append, if_neg hlen_ne]
    have hdw : (xs ++ (r :: rs)).dropWhile isWs = xs.dropWhile isWs ++ (r :: rs) := by
      rw [List.dropWhile_append, if_neg (by simpa [List.isEmpty_iff] using hd_ne)]
    obtain ⟨d1, dtl, hd⟩ : ∃ d1 dtl, xs.dropWhile isWs = d1 :: dtl := by
      cases hcase : xs.dropWhile isWs with
      | nil => exact absurd hcase hd_ne
      | cons a b => exact ⟨a, b, rfl⟩
    have hw1' : ¬ (xs ++ (r :: rs)).takeWhile isWs = [] := by
      rw [htw]
      exact hw1
    have hd' : (xs ++ (r :: rs)).dropWhile isWs = d1 :: (dtl ++ (r :: rs)) := by
      rw [hdw, hd]
      rfl
    obtain ⟨w, ws1, hwrev, hwws⟩ := takeWhile_reverse_head xs hw1
    have hxs_decomp : xs = xs.takeWhile isWs ++ (d1 :: dtl) := by
      conv_lhs => rw [← List.takeWhile_append_dropWhile (p := isWs) (l := xs), hd]
    rw [matchSep_elim _ _ _ hw1' hd']
    rw [matchSep_elim _ _ _ hw1 hd] at hnone
    by_cases hat : d1 = '@'
    · rw [if_pos hat] at hnone ⊢
      have hdtl : dtl.takeWhile isWs = [] := (sepTail_eq_none_iff dtl).mp hnone
      cases dtl with
      | nil =>
        exfalso
        have hxrev : xs.reverse = d1 :: (xs.takeWhile isWs).reverse := by
          conv_lhs => rw [hxs_decomp]
          rw [List.reverse_append]
          rfl
        have hbadx : badEnd xs = true := by
          unfold badEnd
          rw [hxrev, hwrev, hat]
          simp [hwws]
        rw [hbadx] at hbad
        cases hbad
      | cons c2 dtl' =>
        have hc2 : isWs c2 = false := by
          by_contra hcon
          rw [List.takeWhile_cons, if_pos (by simpa using hcon)] at hdtl
          cases hdtl
        show sepTail (c2 :: (dtl' ++ (r :: rs))) = none
        rw [sepTail_eq_none_iff, List.takeWhile_cons, if_neg (by simp [hc2])]
    · rw [if_neg hat] at hnone ⊢
      cases dtl with
      | nil =>
        show (if ((d1 = 'a' || d1 = 'A') && (r = 't' || r = 'T')) = true
          then sepTail rs else none) = none
        rw [if_neg (by simp [isWs_not_t r hr])]
      | cons c2 dtl' =>
        show (if ((d1 = 'a' || d1 = 'A') && (c2 = 't' || c2 = 'T')) = true
          then sepTail (dtl' ++ (r :: rs)) else none) = none
        by_cases htok : ((d1 = 'a' || d1 = 'A') && (c2 = 't' || c2 = 'T')) = true
        · rw [if_pos htok]
          have hnone2 : (if ((d1 = 'a' || d1 = 'A') && (c2 = 't' || c2 = 'T')) = true
              then sepTail dtl' else none) = none := hnone
          rw [if_pos htok] at hnone2
          have hdtl : dtl'.takeWhile isWs = [] := (sepTail_eq_none_iff dtl').mp hnone2
          cases dtl' with
          | nil =>
            exfalso
            have hxrev : xs.reverse = c2 :: d1 :: (xs.takeWhile isWs).reverse := by
              conv_lhs => rw [hxs_decomp]
              rw [List.reverse_append]
              rfl
            have hbadx : badEnd xs = true := by
              unfold badEnd
              rw [hxrev, hwrev]
              rcases (Bool.and_eq_true _ _).mp htok with ⟨h1, h2⟩
              simp [h1, h2, hwws]
            rw [hbadx] at hbad
            cases hbad
          | cons c3 dtl'' =>
            have hc3 : isWs c3 = false := by
              by_contra hcon
              rw [List.takeWhile_cons, if_pos (by simpa using hcon)] at hdtl
              cases hdtl
            show sepTail (c3 :: (dtl'' ++ (r :: rs))) = none
            rw [sepTail_eq_none_iff, List.takeWhile_cons, if_neg (by simp [hc3])]
        · rw [if_neg htok]

theorem sideClean_spec (cs : List Char) (h : sideClean cs = true) :
    (∃ c cs', cs = c :: cs' ∧ isWs c = false)
    ∧ (∃ z zs, cs.reverse = z :: zs ∧ isWs z = false)
    ∧ (∀ i, matchSep (cs.drop i) = none)
    ∧ (∀ i, badEnd (cs.drop i) = false) := by
  unfold sideClean at h
  simp only [Bool.and_eq_true] at h
  obtain ⟨⟨⟨hA, hB⟩, hC⟩, hD⟩ := h
  refine ⟨?_, ?_, ?_, ?_⟩
  · cases hcs : cs with
    | nil =>
      rw [hcs] at hA
      cases hA
    | cons c cs' =>
      rw [hcs] at hA
      exact ⟨c, cs', rfl, by simpa using hA⟩
  · cases hcs : cs.reverse with
    | nil =>
      rw [hcs] at hB
      cases hB
    | cons z zs =>
      rw [hcs] at hB
      exact ⟨z, zs, rfl, by simpa using hB⟩
  · intro i
    by_cases hi : i < cs.length
    · have := List.all_eq_true.mp hC i (List.mem_range.mpr hi)
      simpa [Option.isNone_iff_eq_none] using this
    · rw [List.drop_eq_nil_of_le (by omega)]
      rfl
  · intro i
    by_cases hi : i < cs.length
    · have := List.all_eq_true.mp hD i (List.mem_range.mpr hi)
      simpa using this
    · rw [List.drop_eq_nil_of_le (by omega)]
      rfl

theorem matchSep_amp (home : List Char) (c : Char) (cs' : List Char)
    (hc : home = c :: cs') (hw : isWs c = false) :
    matchSep ([' ', '@', ' '] ++ home) = some home := by
  subst hc
  have h1 : isWs ' ' = true := by decide
  have h2 : isWs '@' = false := by decide
  simp [matchSep, sepTail, List.takeWhile_cons, List.dropWhile_cons, h1, h2, hw]

theorem matchSep_attoken (a t : Char) (ha : a = 'a' ∨ a = 'A') (ht : t = 't' ∨ t = 'T')
    (home : List Char) (c : Char) (cs' : List Char)
    (hc : home = c :: cs') (hw : isWs c = false) :
    matchSep ([' ', a, t, ' '] ++ home) = some home := by
  subst hc
  have h1 : isWs ' ' = true := by decide
  have haws : isWs a = false := by rcases ha with h | h <;> subst h <;> decide
  have htws : isWs t = false := by rcases ht with h | h <;> subst h <;> decide
  have hne : ¬ a = '@' := by rcases ha with h | h <;> subst h <;> decide
  have htok : ((a = 'a' || a = 'A') && (t = 't' || t = 'T')) = true := by
    rcases ha with h | h <;> rcases ht with h2 | h2 <;> subst h <;> subst h2 <;> decide
  simp [matchSep, sepTail, List.takeWhile_cons, List.dropWhile_cons, h1, haws, htws, hne,
    htok, hw]

theorem splitOnSep_clean (away home sep : List Char)
    (hA : sideClean away = true) (hH : sideClean home = true)
    (hmatch : matchSep (sep ++ home) = some home)
    (hsep_ws : ∀ c, (sep ++ home).head? = some c → isWs c = true) :
    splitOnSep (away ++ sep ++ home) = [away, home] := by
  obtain ⟨_, ⟨za, zsa, hreva, hza⟩, hCa, hDa⟩ := sideClean_spec away hA
  obtain ⟨_, _, hCh, _⟩ := sideClean_spec home hH
  have hcross : ∀ i < away.length, matchSep (away.drop i ++ (sep ++ home)) = none := by
    intro i hi
    apply matchSep_append_none
    · have hne : away.drop i ≠ [] := by
        intro hnil
        rw [List.drop_eq_nil_iff] at hnil
        omega
      have hsplit2 : (away.drop i).reverse ++ (away.take i).reverse = away.reverse := by
        rw [← List.reverse_append, List.take_append_drop]
      cases hdi : (away.drop i).reverse with
      | nil => exact absurd (List.reverse_eq_nil_iff.mp hdi) hne
      | cons z' ds =>
        refine ⟨z', ds, rfl, ?_⟩
        have hz' : z' = za := by
          rw [hdi, hreva] at hsplit2
          have := congrArg List.head? hsplit2
          simpa using this
        rw [hz']
        exact hza
    · exact hCa i
    · exact hDa i
    · exact hsep_ws
  unfold splitOnSep
  have harr : (away ++ sep ++ home).length + 1
      = (sep.length + home.length + 1) + away.length := by
    simp [List.length_append]
    omega
  rw [harr, List.append_assoc,
    splitGo_through away (sep.length + home.length + 1) (sep ++ home) [] hcross,
    List.append_nil,
    splitGo_step_some (sep.length + home.length) (sep ++ home) away.reverse home hmatch,
    List.reverse_reverse,
    splitGo_final home sep.length [] (fun i _ => hCh i)]
  simp

theorem stripChars_clean (cs : List Char)
    (h1 : ∃ c cs', cs = c :: cs' ∧ isWs c = false)
    (h2 : ∃ z zs, cs.reverse = z :: zs ∧ isWs z = false) :
    stripChars cs = cs := by
  obtain ⟨c, cs', rfl, hc⟩ := h1
  obtain ⟨z, zs, hz, hzw⟩ := h2
  unfold stripChars
  rw [List.dropWhile_cons, if_neg (by simp [hc]), hz,
    List.dropWhile_cons, if_neg (by simp [hzw]), ← hz, List.reverse_reverse]

/-- C2 counterexample: the separator regex in `parse_matchup` knows only
`@` and `at` — a `vs` matchup whose two sides are both resolvable team
names does not parse at all (the Python code returns `(None, None)`), so
result equality across the three separator styles fails. -/
theorem c2_counterexample :
    to_abbr "Commanders" = "WAS" ∧ to_abbr "Cowboys" = "DAL"
    ∧ parse_matchup "Commanders @ Cowboys" = some ("WAS", "DAL")
    ∧ parse_matchup "Commanders vs Cowboys" = none := by
  decide

/-- C2 amended: for the separators `@` and `at` (the latter in any
letter case), a matchup whose two sides are separator-free clean text
parses to `(to_abbr away, to_abbr home)`, identically for both separator
styles; the `vs` style is NOT supported and yields unresolved (see the
counterexample), and a side containing separator-like text (e.g. an
embedded `" at "`) can also defeat the parse, hence the `sideClean`
hypotheses. -/
theorem c2_parse_matchup_separators (away home : List Char) (a t : Char)
    (hA : sideClean away = true) (hH : sideClean home = true)
    (ha : a = 'a' ∨ a = 'A') (ht : t = 't' ∨ t = 'T') :
    parse_matchup (String.mk (away ++ [' ', '@', ' '] ++ home))
      = some (to_abbr (String.mk away), to_abbr (String.mk home))
    ∧ parse_matchup (String.mk (away ++ [' ', a, t, ' '] ++ home))
      = some (to_abbr (String.mk away), to_abbr (String.mk home)) := by
  obtain ⟨ha1, ha2, _, _⟩ := sideClean_spec away hA
  obtain ⟨hh1, hh2, _, _⟩ := sideClean_spec home hH
  obtain ⟨hc, hcs', hhc, hhw⟩ := hh1
  constructor
  · have hm : matchSep ([' ', '@', ' '] ++ home) = some home :=
      matchSep_amp home hc hcs' hhc hhw
    have hsplit := splitOnSep_clean away home [' ', '@', ' '] hA hH hm
      (by
        intro c hch
        simp only [List.cons_append, List.head?_cons, Option.some.injEq] at hch
        rw [← hch]
        decide)
    unfold parse_matchup
    rw [show (String.mk (away ++ [' ', '@', ' '] ++ home)).toList
      = away ++ [' ', '@', ' '] ++ home from rfl]
    rw [hsplit]
    show some (to_abbr (String.mk (stripChars away)), to_abbr (String.mk (stripChars home)))
      = some (to_abbr (String.mk away), to_abbr (String.mk home))
    rw [stripChars_clean away ha1 ha2, stripChars_clean home ⟨hc, hcs', hhc, hhw⟩ hh2]
  · have hm : matchSep ([' ', a, t, ' '] ++ home) = some home :=
      matchSep_attoken a t ha ht home hc hcs' hhc hhw
    have hsplit := splitOnSep_clean away home [' ', a, t, ' '] hA hH hm
      (by
        intro c hch
        simp only [List.cons_append, List.head?_cons, Option.some.injEq] at hch
        rw [← hch]
        decide)
    unfold parse_matchup
    rw [show (String.mk (away ++ [' ', a, t, ' '] ++ home)).toList
      = away ++ [' ', a, t, ' '] ++ home from rfl]
    rw [hsplit]
    show some (to_abbr (String.mk (stripChars away)), to_abbr (String.mk (stripChars home)))
      = some (to_abbr (String.mk away), to_abbr (String.mk home))
    rw [stripChars_clean away ha1 ha2, stripChars_clean home ⟨hc, hcs', hhc, hhw⟩ hh2]

theorem c2_parse_matchup_separators_witness :
    sideClean "Commanders".toList = true
    ∧ sideClean "Cowboys".toList = true
    ∧ parse_matchup "Commanders @ Cowboys" = some ("WAS", "DAL")
    ∧ parse_matchup "Commanders at Cowboys" = some ("WAS", "DAL")
    ∧ parse_matchup "Commanders At Cowboys" = some ("WAS", "DAL") := by
  have h1 := c2_parse_matchup_separators "Commanders".toList "Cowboys".toList 'a' 't'
    (by decide) (by decide) (Or.inl rfl) (Or.inl rfl)
  have h2 := c2_parse_matchup_separators "Commanders".toList "Cowboys".toList 'A' 't'
    (by decide) (by decide) (Or.inr rfl) (Or.inl rfl)
  refine ⟨by decide, by decide, ?_, ?_, ?_⟩
  · have hx := h1.1
    rw [show String.mk ("Commanders".toList ++ [' ', '@', ' '] ++ "Cowboys".toList)
        = "Commanders @ Cowboys" from by decide,
      show to_abbr (String.mk "Commanders".toList) = "WAS" from by decide,
      show to_abbr (String.mk "Cowboys".toList) = "DAL" from by decide] at hx
    exact hx
  · have hx := h1.2
    rw [show String.mk ("Commanders".toList ++ [' ', 'a', 't', ' '] ++ "Cowboys".toList)
        = "Commanders at Cowboys" from by decide,
      show to_abbr (String.mk "Commanders".toList) = "WAS" from by decide,
      show to_abbr (String.mk "Cowboys".toList) = "DAL" from by decide] at hx
    exact hx
  · have hx := h2.2
    rw [show String.mk ("Commanders".toList ++ [' ', 'A', 't', ' '] ++ "Cowboys".toList)
        = "Commanders At Cowboys" from by decide,
      show to_abbr (String.mk "Commanders".toList) = "WAS" from by decide,
      show to_abbr (String.mk "Cowboys".toList) = "DAL" from by decide] at hx
    exact hx

/-! ## C8 -/

theorem tanh_le_tanh (x y : ℝ) (h : x ≤ y) : Real.tanh x ≤ Real.tanh y := by
  rw [Real.tanh_eq_sinh_div_cosh, Real.tanh_eq_sinh_div_cosh,
    div_le_div_iff (Real.cosh_pos x) (Real.cosh_pos y)]
  have hs : 0 ≤ Real.sinh (y - x) := Real.sinh_nonneg_iff.mpr (by linarith)
  have hsub := Real.sinh_sub y x
  nlinarith [hsub, hs]

theorem clamp01_mono {p q : ℝ} (h : p ≤ q) : clamp01 p ≤ clamp01 q := by
  unfold clamp01
  exact max_le_max (le_refl 0) (min_le_min (le_refl 1) h)

theorem contrast_curve_mono {p q : ℝ} (h : p ≤ q) : contrast_curve p ≤ contrast_curve q := by
  unfold contrast_curve
  have := tanh_le_tanh ((p - 0.5) * 3.6) ((q - 0.5) * 3.6) (by nlinarith)
  linarith

theorem pct_to_color_some (p0 : ℝ) :
    pct_to_color (some p0)
      = (if contrast_curve (clamp01 p0) ≤ 0.5 then
          RGB.mk (0.85 + (1.0 - 0.85) * (contrast_curve (clamp01 p0) / 0.5))
                 (0.18 + (1.0 - 0.18) * (contrast_curve (clamp01 p0) / 0.5))
                 (0.18 + (1.0 - 0.18) * (contrast_curve (clamp01 p0) / 0.5))
        else
          RGB.mk (1.0 + (0.20 - 1.0) * ((contrast_curve (clamp01 p0) - 0.5) / 0.5))
                 (1.0 + (0.92 - 1.0) * ((contrast_curve (clamp01 p0) - 0.5) / 0.5))
                 (1.0 + (0.20 - 1.0) * ((contrast_curve (clamp01 p0) - 0.5) / 0.5))) := rfl

theorem color_greenness (p : ℝ) :
    (pct_to_color (some p)).g - (pct_to_color (some p)).r
      = if contrast_curve (clamp01 p) ≤ 0.5
        then 1.34 * contrast_curve (clamp01 p) - 0.67
        else 1.44 * contrast_curve (clamp01 p) - 0.72 := by
  rw [pct_to_color_some]
  by_cases h : contrast_curve (clamp01 p) ≤ 0.5
  · rw [if_pos h, if_pos h]
    dsimp only
    ring
  · rw [if_neg h, if_neg h]
    dsimp only
    ring

/-- C8 counterexample: `color(p)` and `color(100-p)` are NOT exact
red/green mirrors — at the extreme ends the red channel of the bottom
color (endpoint 0.85) and the green channel of the top color (endpoint
0.92) differ, because `tanh 1.8 > 0` puts the two ends strictly on the
red/green branches with unequal endpoint constants. -/
theorem c8_counterexample :
    (pct_to_color (some (0 : ℝ))).r ≠ (pct_to_color (some (1 : ℝ))).g := by
  have ht : 0 < Real.tanh 1.8 := by
    rw [Real.tanh_eq_sinh_div_cosh]
    exact div_pos (Real.sinh_pos_iff.mpr (by norm_num)) (Real.cosh_pos _)
  have hc0 : clamp01 (0 : ℝ) = 0 := by
    unfold clamp01
    norm_num
  have hc1 : clamp01 (1 : ℝ) = 1 := by
    unfold clamp01
    norm_num
  have hcc0 : contrast_curve 0 = 0.5 - 0.5 * Real.tanh 1.8 := by
    unfold contrast_curve
    rw [show ((0 : ℝ) - 0.5) * 3.6 = -(1.8) by norm_num, Real.tanh_neg]
    ring
  have hcc1 : contrast_curve 1 = 0.5 + 0.5 * Real.tanh 1.8 := by
    unfold contrast_curve
    rw [show ((1 : ℝ) - 0.5) * 3.6 = 1.8 by norm_num]
  have hle : contrast_curve (clamp01 (0 : ℝ)) ≤ 0.5 := by
    rw [hc0, hcc0]
    linarith
  have hgt : ¬ contrast_curve (clamp01 (1 : ℝ)) ≤ 0.5 := by
    rw [hc1, hcc1]
    intro hcon
    linarith
  rw [pct_to_color_some, pct_to_color_some, if_pos hle, if_neg hgt]
  dsimp only
  rw [hc0, hcc0, hc1, hcc1]
  intro heq
  ring_nf at heq
  linarith [heq, ht]

/-- C8 amended: the color mapper sends a null percentile to white, sends
the 50th percentile (fraction `0.5`) to neutral white, and is monotonic
in the percentile in the red-to-green sense (the green-minus-red excess
is monotone); the contrast curve itself is exactly symmetric about the
midpoint, but the interpolated colors are only approximately mirrored —
the endpoint constants differ (see the counterexample). -/
theorem c8_color_mapper (p q : ℝ) (hpq : p ≤ q) :
    pct_to_color none = RGB.mk 1 1 1
    ∧ pct_to_color (some (0.5 : ℝ)) = RGB.mk 1 1 1
    ∧ ((pct_to_color (some p)).g - (pct_to_color (some p)).r
        ≤ (pct_to_color (some q)).g - (pct_to_color (some q)).r)
    ∧ (∀ x : ℝ, contrast_curve (1 - x) = 1 - contrast_curve x) := by
  refine ⟨rfl, ?_, ?_, ?_⟩
  · have hc : clamp01 (0.5 : ℝ) = 0.5 := by
      unfold clamp01
      norm_num
    have hcc : contrast_curve (0.5 : ℝ) = 0.5 := by
      unfold contrast_curve
      rw [show ((0.5 : ℝ) - 0.5) * 3.6 = 0 by norm_num, Real.tanh_zero]
      norm_num
    rw [pct_to_color_some, hc, hcc, if_pos (le_refl _)]
    have : (0.5 : ℝ) / 0.5 = 1 := by norm_num
    rw [this]
    norm_num
  · rw [color_greenness, color_greenness]
    have hpc : contrast_curve (clamp01 p) ≤ contrast_curve (clamp01 q) :=
      contrast_curve_mono (clamp01_mono hpq)
    by_cases h1 : contrast_curve (clamp01 p) ≤ 0.5 <;>
      by_cases h2 : contrast_curve (clamp01 q) ≤ 0.5
    · rw [if_pos h1, if_pos h2]
      linarith
    · rw [if_pos h1, if_neg h2]
      push_neg at h2
      linarith
    · exact absurd (le_trans hpc h2) h1
    · rw [if_neg h1, if_neg h2]
      linarith
  · intro x
    unfold contrast_curve
    rw [show (1 - x - 0.5) * 3.6 = -((x - 0.5) * 3.6) by ring, Real.tanh_neg]
    ring

theorem c8_color_mapper_witness :
    pct_to_color none = RGB.mk 1 1 1
    ∧ pct_to_color (some (0.5 : ℝ)) = RGB.mk 1 1 1
    ∧ ((pct_to_color (some (0 : ℝ))).g - (pct_to_color (some (0 : ℝ))).r
        ≤ (pct_to_color (some (1 : ℝ))).g - (pct_to_color (some (1 : ℝ))).r) :=
  ⟨(c8_color_mapper 0 1 (by norm_num)).1,
   (c8_color_mapper 0 1 (by norm_num)).2.1,
   (c8_color_mapper 0 1 (by norm_num)).2.2.1⟩
